import Mathlib

set_option maxHeartbeats 1000000

/-
Verification development for the keel-telegram-bot repository.

This file gives a shallow embedding of the message-state synchronization
core found in `src/keel_telegram_bot/bot/__init__.py` (class
`KeelTelegramBot`):

* the listing classification of `_list_approvals_callback` (lines 141-147),
* the control-menu construction `create_approval_notification_menu`
  (lines 469-480),
* the message registry `_message_map` with `_register_message`
  (lines 482-493), the lookup `self._message_map.get(key, {})`
  (line 506, called `messagesFor` in the specification) and the removal
  `message_ids.remove(failure)` (lines 524-525, called `forget` in the
  specification),
* the synchronization pass `update_messages` (lines 495-525),
* the shared identifier-resolution block of `_approve_callback`,
  `_reject_callback` and `_delete_callback` (lines 206-218, 250-260,
  288-300),
* the inline-button click handler `_inline_keyboard_click_callback`
  (lines 415-457).

Modelling conventions: Python dictionaries (which preserve insertion
order and have unique keys) are modelled as insertion-ordered association
lists; Python sets of message ids are modelled as duplicate-free lists in
insertion order (Python iterates a set in an unspecified order; none of
the properties proved below depends on the iteration order chosen by the
model).  A raised exception that escapes a function is modelled by an
explicit error value.  Outbound calls (telegram message edits, approval
API calls) are modelled as oracles passed in as function arguments, and
the actions the code performs on them are collected in explicit traces.
-/

/-- An approval record as returned by the Keel API: the dictionary fields
the bot code reads (`id`, `identifier`, `votesReceived`, `votesRequired`,
`archived`, `rejected`).  Free-form display-only metadata is not modelled. -/
structure ApprovalRecord where
  id : String
  identifier : String
  votesReceived : Nat
  votesRequired : Nat
  archived : Bool
  rejected : Bool
deriving DecidableEq

/-- `m.get(k, d)` on an insertion-ordered dictionary: the value of the first
entry with key `k`, or the default `d` when no entry has key `k`. -/
def alGet {α β : Type} [DecidableEq α] (m : List (α × β)) (k : α) (d : β) : β :=
  match m with
  | [] => d
  | (k', v) :: rest => if k = k' then v else alGet rest k d

/-- `m.setdefault(k, d)` followed by an in-place update `f` of the stored
value: updates the first entry with key `k`, or appends `(k, f d)` when no
entry has key `k` (Python dictionaries append new keys at the end). -/
def alUpdate {α β : Type} [DecidableEq α] (m : List (α × β)) (k : α) (d : β) (f : β → β) :
    List (α × β) :=
  match m with
  | [] => [(k, f d)]
  | (k', v) :: rest => if k = k' then (k', f v) :: rest else (k', v) :: alUpdate rest k d f

/-- Overwrite the value stored under key `k` when such an entry exists;
when no entry has key `k` the dictionary is unchanged.  This models an
in-place mutation of a value object previously obtained from the
dictionary (mutating it has no effect on the dictionary when it was a
fresh default). -/
def alSetExisting {α β : Type} [DecidableEq α] (m : List (α × β)) (k : α) (v : β) :
    List (α × β) :=
  match m with
  | [] => []
  | (k', v') :: rest => if k = k' then (k', v) :: rest else (k', v') :: alSetExisting rest k v

/-- Whether the dictionary has an entry with key `k`. -/
def alHasKey {α β : Type} [DecidableEq α] (m : List (α × β)) (k : α) : Bool :=
  match m with
  | [] => false
  | (k', _) :: rest => if k = k' then true else alHasKey rest k

/-- Python `set.add` on a set modelled as a duplicate-free list:
no effect when the element is present, otherwise append it. -/
def setInsert (s : List Nat) (x : Nat) : List Nat :=
  if x ∈ s then s else s ++ [x]

/-- Python `set.remove`/`discard` result on a set modelled as a list:
drop every occurrence of `x`. -/
def setErase (s : List Nat) (x : Nat) : List Nat :=
  s.filter (fun y => decide (y ≠ x))

/- ----------------------------------------------------------------- -/
/- Listing classification (`_list_approvals_callback`, lines 141-147) -/
/- ----------------------------------------------------------------- -/

/-- `rejected_items = list(filter(lambda x: x[KEY_REJECTED], items))`. -/
def rejected_items (items : List ApprovalRecord) : List ApprovalRecord :=
  items.filter (fun x => x.rejected)

/-- `archived_items = list(filter(lambda x: x[KEY_ARCHIVED], items))`. -/
def archived_items (items : List ApprovalRecord) : List ApprovalRecord :=
  items.filter (fun x => x.archived)

/-- `pending_items`: items not in `archived_items`, not in `rejected_items`,
with `votesReceived < votesRequired` (membership tests are Python `in`
against the two filtered lists, i.e. list membership by value equality). -/
def pending_items (items : List ApprovalRecord) : List ApprovalRecord :=
  items.filter (fun x =>
    decide (x ∉ archived_items items) && decide (x ∉ rejected_items items) &&
      decide (x.votesReceived < x.votesRequired))

/-- `approved_items`: items in none of the other three classes. -/
def approved_items (items : List ApprovalRecord) : List ApprovalRecord :=
  items.filter (fun x =>
    decide (x ∉ rejected_items items) && decide (x ∉ archived_items items) &&
      decide (x ∉ pending_items items))

/- ----------------------------------------------------------------- -/
/- Inline keyboard menu (`create_approval_notification_menu`)          -/
/- ----------------------------------------------------------------- -/

/-- Modelled from the spec: the callback-data tokens `BUTTON_DATA_APPROVE`,
`BUTTON_DATA_REJECT` and `BUTTON_DATA_NOTHING` (the no-op sentinel) are
defined in the `keel_telegram_bot.stats` module, which is not part of the
provided source.  Per the specification they are three distinct opaque
tokens; the handler code only ever compares callback data against them
for equality, so their concrete values are irrelevant as long as they are
pairwise distinct. -/
def BUTTON_DATA_APPROVE : String := "approve"

/-- Modelled from the spec: the reject callback token (see
`BUTTON_DATA_APPROVE`). -/
def BUTTON_DATA_REJECT : String := "reject"

/-- Modelled from the spec: the no-op sentinel callback token (see
`BUTTON_DATA_APPROVE`). -/
def BUTTON_DATA_NOTHING : String := "nothing"

/-- `create_approval_notification_menu` (lines 469-480): the inline
keyboard for an approval record, as an ordered list of
(button label, callback data) pairs. -/
def create_approval_notification_menu (item : ApprovalRecord) : List (String × String) :=
  if item.archived then [("Approved", BUTTON_DATA_NOTHING)]
  else if item.rejected then [("Rejected", BUTTON_DATA_NOTHING)]
  else if item.votesReceived < item.votesRequired then
    [("Approve", BUTTON_DATA_APPROVE), ("Reject", BUTTON_DATA_REJECT)]
  else []

/- ----------------------------------------------------------------- -/
/- Message registry                                                    -/
/- ----------------------------------------------------------------- -/

/-- Per-key chat map: chat id mapped to the set of tracked message ids. -/
abbrev ChatMap := List (Nat × List Nat)

/-- The registry `self._message_map`: internal string key mapped to a
chat map. -/
abbrev Registry := List (String × ChatMap)

/-- The registry key derivation `key = f"{approval_id}_{approval_identifier}"`
(lines 492 and 504). -/
def makeKey (approval_id approval_identifier : String) : String :=
  approval_id ++ "_" ++ approval_identifier

/-- `_register_message` (lines 482-493):
`self._message_map.setdefault(key, {}).setdefault(chat_id, set()).add(message_id)`.
Parameter order follows the source (`chat_id, message_id, approval_id,
approval_identifier`). -/
def register_message (reg : Registry) (chat_id message_id : Nat)
    (approval_id approval_identifier : String) : Registry :=
  alUpdate reg (makeKey approval_id approval_identifier) []
    (fun chats => alUpdate chats chat_id [] (fun s => setInsert s message_id))

/-- The registry read `self._message_map.get(key, {})` (line 506), the
operation the specification calls `messagesFor`. -/
def messagesFor (reg : Registry) (approval_id approval_identifier : String) : ChatMap :=
  alGet reg (makeKey approval_id approval_identifier) []

/-- The registry removal the specification calls `forget`: the code's only
removal of a tracked message id is `message_ids.remove(failure)`
(lines 524-525), where `message_ids` is the live set stored under the
derived key and chat.  Python `set.remove` raises `KeyError` when the
element is absent; the raised exception is modelled as `Except.error ()`. -/
def forget (reg : Registry) (approval_id approval_identifier : String)
    (chat_id message_id : Nat) : Except Unit Registry :=
  if message_id ∈ alGet (alGet reg (makeKey approval_id approval_identifier) []) chat_id [] then
    Except.ok (alSetExisting reg (makeKey approval_id approval_identifier)
      (alSetExisting (alGet reg (makeKey approval_id approval_identifier) []) chat_id
        (setErase (alGet (alGet reg (makeKey approval_id approval_identifier) []) chat_id [])
          message_id)))
  else
    Except.error ()

/- ----------------------------------------------------------------- -/
/- The synchronization pass (`update_messages`, lines 495-525)         -/
/- ----------------------------------------------------------------- -/

/-- One edit attempt performed by `update_messages`: the approval record
being rendered, the target chat and message id, the inline keyboard that
was attached to the edit, and whether the edit succeeded (`bot.edit_message_text`
did not raise). -/
structure EditAttempt where
  approval : ApprovalRecord
  chat_id : Nat
  message_id : Nat
  menu : List (String × String)
  ok : Bool
deriving DecidableEq

/-- The inner loop of `update_messages` over one chat's message-id set
(lines 509-522): each edit is attempted inside `try`; on failure the
message id is added to `failed_messages`.  Returns the attempts made and
the resulting `failed_messages` set. -/
def editMessagesInChat (approval : ApprovalRecord) (editOk : Nat → Nat → Bool)
    (chat_id : Nat) : List Nat → List Nat → List EditAttempt × List Nat
  | [], failed => ([], failed)
  | m :: rest, failed =>
    let ok := editOk chat_id m
    let failed' := if ok then failed else setInsert failed m
    let r := editMessagesInChat approval editOk chat_id rest failed'
    (⟨approval, chat_id, m, create_approval_notification_menu approval, ok⟩ :: r.1, r.2)

/-- The failure-removal loop `for failure in failed_messages:
message_ids.remove(failure)` (lines 524-525).  `set.remove` raises
`KeyError` when the element is absent; the loop then stops with the set
as mutated so far.  Returns the resulting set and whether a `KeyError`
was raised. -/
def removeAllLoop (s : List Nat) : List Nat → List Nat × Bool
  | [] => (s, false)
  | f :: rest =>
    if f ∈ s then removeAllLoop (setErase s f) rest
    else (s, true)

/-- The loop of `update_messages` over one approval's chats (lines
508-525).  `failed` is the `failed_messages` set, which is created once
per approval (line 507) and — as in the source — is *not* reset between
chats.  Returns the attempts, the updated chat map, and whether an
uncaught `KeyError` escaped (aborting the pass). -/
def processChats (approval : ApprovalRecord) (editOk : Nat → Nat → Bool) :
    ChatMap → List Nat → List EditAttempt × ChatMap × Bool
  | [], _ => ([], [], false)
  | (chat_id, msgs) :: rest, failed =>
    let r1 := editMessagesInChat approval editOk chat_id msgs failed
    let r2 := removeAllLoop msgs r1.2
    if r2.2 then (r1.1, (chat_id, r2.1) :: rest, true)
    else
      let r3 := processChats approval editOk rest r1.2
      (r1.1 ++ r3.1, (chat_id, r2.1) :: r3.2.1, r3.2.2)

/-- Processing of one approval inside `update_messages` (lines 501-525):
derive the key, look up the chats (`.get(key, {})`, a live reference when
the key is present), run the per-chat loops, and write the mutated chat
map back (mutation only affects the registry when the key was present). -/
def processApproval (editOk : Nat → Nat → Bool) (reg : Registry)
    (approval : ApprovalRecord) : List EditAttempt × Registry × Bool :=
  let key := makeKey approval.id approval.identifier
  let r := processChats approval editOk (alGet reg key []) []
  (r.1, alSetExisting reg key r.2.1, r.2.2)

/-- `update_messages` (lines 495-525), the specification's `synchronize()`:
given the fresh approval listing returned by `self._api_client.get_approvals()`,
an edit-success oracle for `bot.edit_message_text`, and the registry,
returns the trace of edit attempts, the resulting registry, and whether
the pass was aborted by an uncaught exception (`True` means a `KeyError`
escaped `update_messages`; approvals after the aborting one are never
processed). -/
def update_messages (approvals : List ApprovalRecord) (editOk : Nat → Nat → Bool)
    (reg : Registry) : List EditAttempt × Registry × Bool :=
  match approvals with
  | [] => ([], reg, false)
  | a :: rest =>
    let r := processApproval editOk reg a
    if r.2.2 then (r.1, r.2.1, true)
    else
      let r2 := update_messages rest editOk r.2.1
      (r.1 ++ r2.1, r2.2.1, r2.2.2)

/- ----------------------------------------------------------------- -/
/- Identifier resolution for approve / reject / delete                 -/
/- ----------------------------------------------------------------- -/

/-- Outcome of the shared resolution block of `_approve_callback`
(lines 206-218), `_reject_callback` (lines 248-260) and `_delete_callback`
(lines 288-300): either `execute` is invoked immediately on one record,
or the interactive disambiguation selection
(`self._response_handler.await_user_selection`) is entered over the
listing with the user's input. -/
inductive Resolution where
  | immediate (item : ApprovalRecord)
  | disambiguate (input : String) (choices : List ApprovalRecord)
deriving DecidableEq

/-- The shared resolution block: filter the listing for records whose
`id` equals the user-supplied string; when the filtered list is nonempty
invoke the action on its first element and return, otherwise enter the
fuzzy-match disambiguation over `identifier`.  For approve/reject the
caller passes the open listing (`get_approvals(rejected=False,
archived=False)`); for delete the full listing (`get_approvals()`). -/
def resolve_target (items : List ApprovalRecord) (input : String) : Resolution :=
  match items.filter (fun x => decide (x.id = input)) with
  | r :: _ => Resolution.immediate r
  | [] => Resolution.disambiguate input items

/- ----------------------------------------------------------------- -/
/- Inline-button click handling (`_inline_keyboard_click_callback`)    -/
/- ----------------------------------------------------------------- -/

/-- The observable outcome of one inline-button click: the approval-API
mutations issued (action, approval id, approval identifier, voter), the
`answer_callback_query` acknowledgement texts sent to the clicking user,
and whether `update_messages()` was invoked. -/
structure ClickResult where
  apiCalls : List (String × String × String × String)
  answers : List String
  synced : Bool
deriving DecidableEq

/-- The multiline regex searches `re.search(r"^Id: (.*)", ...)` and
`re.search(r"^Identifier: (.*)", ...)` (lines 433-436) on the displayed
message text, modelled on the text split into lines: the captured suffix
of the first line starting with the given tag, or `none` when no line
matches (in which case `matches.group(1)` in the source raises
`AttributeError`). -/
def parse_line_value (tag : String) : List String → Option String
  | [] => none
  | l :: rest =>
    if tag.toList.isPrefixOf l.toList then some (String.mk (l.toList.drop tag.toList.length))
    else parse_line_value tag rest

/-- `_inline_keyboard_click_callback` (lines 415-457).  `api action id
identifier voter` models the approval-API call; `Except.error content`
models an `HTTPError` whose response content decodes to `content`.  Any
other exception inside the `try` block (in particular the
`AttributeError` from a failed regex parse) is answered with the literal
text `"Unknwon error"` (sic, the source's spelling). -/
def inline_keyboard_click (api : String → String → String → String → Except String Unit)
    (data : String) (lines : List String) (user : String) : ClickResult :=
  if data = BUTTON_DATA_NOTHING then
    { apiCalls := [], answers := [], synced := false }
  else
    match parse_line_value "Id: " lines with
    | none => { apiCalls := [], answers := ["Unknwon error"], synced := false }
    | some approval_id =>
      match parse_line_value "Identifier: " lines with
      | none => { apiCalls := [], answers := ["Unknwon error"], synced := false }
      | some approval_identifier =>
        if data = BUTTON_DATA_APPROVE then
          match api "approve" approval_id approval_identifier user with
          | Except.ok _ =>
            { apiCalls := [("approve", approval_id, approval_identifier, user)],
              answers := ["Approved \x27" ++ approval_identifier ++ "\x27"], synced := true }
          | Except.error content =>
            { apiCalls := [("approve", approval_id, approval_identifier, user)],
              answers := [content], synced := false }
        else if data = BUTTON_DATA_REJECT then
          match api "reject" approval_id approval_identifier user with
          | Except.ok _ =>
            { apiCalls := [("reject", approval_id, approval_identifier, user)],
              answers := ["Rejected \x27" ++ approval_identifier ++ "\x27"], synced := true }
          | Except.error content =>
            { apiCalls := [("reject", approval_id, approval_identifier, user)],
              answers := [content], synced := false }
        else
          { apiCalls := [], answers := ["Unknown button"], synced := false }

/- ----------------------------------------------------------------- -/
/- Basic lemmas about the dictionary and set model                     -/
/- ----------------------------------------------------------------- -/

theorem alGet_alUpdate_eq {α β : Type} [DecidableEq α] (m : List (α × β)) (k : α) (d d' : β)
    (f : β → β) : alGet (alUpdate m k d f) k d' = f (alGet m k d) := by
  induction m with
  | nil => simp [alGet, alUpdate]
  | cons p rest ih =>
    obtain ⟨k', v⟩ := p
    by_cases h : k = k' <;> simp [alGet, alUpdate, h, ih]

theorem alUpdate_alUpdate {α β : Type} [DecidableEq α] (m : List (α × β)) (k : α) (d : β)
    (f g : β → β) :
    alUpdate (alUpdate m k d f) k d g = alUpdate m k d (fun v => g (f v)) := by
  induction m with
  | nil => simp [alUpdate]
  | cons p rest ih =>
    obtain ⟨k', v⟩ := p
    by_cases h : k = k' <;> simp [alUpdate, h, ih]

theorem alSetExisting_alGet {α β : Type} [DecidableEq α] (m : List (α × β)) (k : α) (d : β) :
    alSetExisting m k (alGet m k d) = m := by
  induction m with
  | nil => simp [alSetExisting]
  | cons p rest ih =>
    obtain ⟨k', v⟩ := p
    by_cases h : k = k' <;> simp [alGet, alSetExisting, h, ih]

theorem alGet_alSetExisting_ne {α β : Type} [DecidableEq α] (m : List (α × β)) (k k' : α)
    (v : β) (d : β) (h : k' ≠ k) : alGet (alSetExisting m k v) k' d = alGet m k' d := by
  induction m with
  | nil => simp [alSetExisting]
  | cons p rest ih =>
    obtain ⟨k'', v''⟩ := p
    by_cases h2 : k = k''
    · subst h2
      simp [alSetExisting, alGet, h, ih]
    · by_cases h3 : k' = k'' <;> simp [alSetExisting, alGet, h2, h3, ih]

theorem alGet_alSetExisting_self {α β : Type} [DecidableEq α] (m : List (α × β)) (k : α)
    (v : β) (d : β) (h : alHasKey m k = true) : alGet (alSetExisting m k v) k d = v := by
  induction m with
  | nil => simp [alHasKey] at h
  | cons p rest ih =>
    obtain ⟨k', v'⟩ := p
    by_cases h2 : k = k'
    · simp [alSetExisting, alGet, h2]
    · simp [alHasKey, h2] at h
      simp [alSetExisting, alGet, h2, ih h]

theorem alHasKey_of_alGet_ne {α β : Type} [DecidableEq α] {m : List (α × β)} {k : α} {d : β}
    (h : alGet m k d ≠ d) : alHasKey m k = true := by
  induction m with
  | nil => simp [alGet] at h
  | cons p rest ih =>
    obtain ⟨k', v⟩ := p
    by_cases h2 : k = k'
    · simp [alHasKey, h2]
    · simp [alGet, h2] at h
      simp [alHasKey, h2, ih h]

theorem mem_setInsert_self (s : List Nat) (x : Nat) : x ∈ setInsert s x := by
  unfold setInsert
  by_cases h : x ∈ s <;> simp [h]

theorem setInsert_of_mem {s : List Nat} {x : Nat} (h : x ∈ s) : setInsert s x = s := by
  simp [setInsert, h]

theorem setInsert_idem (s : List Nat) (x : Nat) :
    setInsert (setInsert s x) x = setInsert s x :=
  setInsert_of_mem (mem_setInsert_self s x)

theorem mem_setErase (s : List Nat) (x y : Nat) :
    y ∈ setErase s x ↔ (y ∈ s ∧ y ≠ x) := by
  simp [setErase, List.mem_filter]

/- ----------------------------------------------------------------- -/
/- Membership characterization of the listing classes                  -/
/- ----------------------------------------------------------------- -/

theorem mem_archived_iff (items : List ApprovalRecord) (x : ApprovalRecord) :
    x ∈ archived_items items ↔ x ∈ items ∧ x.archived = true := by
  simp [archived_items, List.mem_filter]

theorem mem_rejected_iff (items : List ApprovalRecord) (x : ApprovalRecord) :
    x ∈ rejected_items items ↔ x ∈ items ∧ x.rejected = true := by
  simp [rejected_items, List.mem_filter]

theorem mem_pending_iff (items : List ApprovalRecord) (x : ApprovalRecord) :
    x ∈ pending_items items ↔
      x ∈ items ∧ x.archived = false ∧ x.rejected = false ∧
        x.votesReceived < x.votesRequired := by
  simp only [pending_items, List.mem_filter, Bool.and_eq_true, decide_eq_true_eq,
    mem_archived_iff, mem_rejected_iff]
  constructor
  · rintro ⟨hx, ⟨⟨ha, hr⟩, hv⟩⟩
    refine ⟨hx, ?_, ?_, hv⟩
    · cases h : x.archived
      · rfl
      · exact absurd ⟨hx, h⟩ ha
    · cases h : x.rejected
      · rfl
      · exact absurd ⟨hx, h⟩ hr
  · rintro ⟨hx, ha, hr, hv⟩
    exact ⟨hx, ⟨⟨fun h => by simp [ha] at h, fun h => by simp [hr] at h⟩, hv⟩⟩

theorem mem_approved_iff (items : List ApprovalRecord) (x : ApprovalRecord) :
    x ∈ approved_items items ↔
      x ∈ items ∧ x.archived = false ∧ x.rejected = false ∧
        ¬(x.votesReceived < x.votesRequired) := by
  simp only [approved_items, List.mem_filter, Bool.and_eq_true, decide_eq_true_eq,
    mem_archived_iff, mem_rejected_iff, mem_pending_iff]
  constructor
  · rintro ⟨hx, ⟨⟨hr, ha⟩, hp⟩⟩
    have ha' : x.archived = false := by
      cases h : x.archived
      · rfl
      · exact absurd ⟨hx, h⟩ ha
    have hr' : x.rejected = false := by
      cases h : x.rejected
      · rfl
      · exact absurd ⟨hx, h⟩ hr
    exact ⟨hx, ha', hr', fun hv => hp ⟨hx, ha', hr', hv⟩⟩
  · rintro ⟨hx, ha, hr, hv⟩
    refine ⟨hx, ⟨⟨fun h => by simp [hr] at h, fun h => by simp [ha] at h⟩, ?_⟩⟩
    rintro ⟨-, -, -, h⟩
    exact hv h

theorem messagesFor_def (reg : Registry) (aid ident : String) :
    messagesFor reg aid ident = alGet reg (makeKey aid ident) [] := rfl

theorem alUpdate_congr {α β : Type} [DecidableEq α] (m : List (α × β)) (k : α) (d : β)
    {f g : β → β} (h : ∀ v, f v = g v) : alUpdate m k d f = alUpdate m k d g := by
  induction m with
  | nil => simp [alUpdate, h]
  | cons p rest ih =>
    obtain ⟨k', v⟩ := p
    by_cases h2 : k = k' <;> simp [alUpdate, h2, h, ih]

/- ----------------------------------------------------------------- -/
/- Claim C10: key derivation is not injective                          -/
/- ----------------------------------------------------------------- -/

/-- Claim C10: the registry key is `approval_id ++ "_" ++ approval_identifier`
and this derivation is not injective: the distinct composite pairs
`("a_b", "c")` and `("a", "b_c")` derive the same key `"a_b_c"`, so a
message registered under the first pair is returned by `messagesFor` under
the second pair — the two approvals' tracked messages are conflated. -/
theorem key_derivation_not_injective :
    makeKey "a_b" "c" = makeKey "a" "b_c" ∧
    (("a_b", "c") : String × String) ≠ ("a", "b_c") ∧
    10 ∈ alGet (messagesFor (register_message [] 1 10 "a_b" "c") "a" "b_c") 1 [] := by
  decide

/- ----------------------------------------------------------------- -/
/- Claim C7: the no-op sentinel click                                  -/
/- ----------------------------------------------------------------- -/

/-- Claim C7 counterexample: as written, the claim says the handler
*acknowledges* the click carrying the no-op sentinel token.  It does not:
`_inline_keyboard_click_callback` returns immediately (line 430) without
calling `answer_callback_query`, so the acknowledgement list is empty at
this concrete input. -/
theorem noop_click_not_acknowledged :
    inline_keyboard_click (fun _ _ _ _ => Except.ok ()) BUTTON_DATA_NOTHING
      ["Id: a1", "Identifier: ns/img:1.0"] "user" =
      { apiCalls := [], answers := [], synced := false } := by
  decide

/-- Claim C7 (amended): for every click whose callback token is the no-op
sentinel, the handler takes no action at all: it sends no acknowledgement,
issues no API mutation, and does not call `update_messages` (and hence
changes no registry state). -/
theorem noop_click_takes_no_action
    (api : String → String → String → String → Except String Unit)
    (lines : List String) (user : String) :
    inline_keyboard_click api BUTTON_DATA_NOTHING lines user =
      { apiCalls := [], answers := [], synced := false } := by
  simp [inline_keyboard_click]

/- ----------------------------------------------------------------- -/
/- Claim C8: malformed message text on an approve/reject click         -/
/- ----------------------------------------------------------------- -/

/-- Claim C8: an approve or reject click on a message whose text lacks an
`Id:` line or an `Identifier:` line is answered with the unknown-error
acknowledgement (the source's literal text `"Unknwon error"`), with no
API mutation issued and no `update_messages` call.  (The accompanying
`LOGGER.error` call is outside the model; the handler reaches the generic
`except Exception` branch, which is the logging branch.) -/
theorem malformed_click_answers_unknown_error
    (api : String → String → String → String → Except String Unit)
    (data : String) (lines : List String) (user : String)
    (hdata : data = BUTTON_DATA_APPROVE ∨ data = BUTTON_DATA_REJECT)
    (hmiss : parse_line_value "Id: " lines = none ∨
      parse_line_value "Identifier: " lines = none) :
    inline_keyboard_click api data lines user =
      { apiCalls := [], answers := ["Unknwon error"], synced := false } := by
  have hne : data ≠ BUTTON_DATA_NOTHING := by
    rcases hdata with rfl | rfl <;> decide
  unfold inline_keyboard_click
  rw [if_neg hne]
  rcases hmiss with h | h
  · rw [h]
  · cases hid : parse_line_value "Id: " lines with
    | none => rfl
    | some v => rw [h]

/-- Claim C8 witness: the spec's scenario, a click with the approve token
on a message whose text lacks an `Id:` line. -/
theorem malformed_click_witness :
    (BUTTON_DATA_APPROVE = BUTTON_DATA_APPROVE ∨ BUTTON_DATA_APPROVE = BUTTON_DATA_REJECT) ∧
    (parse_line_value "Id: " ["Identifier: ns/img:1.0", "Votes: 0/2"] = none ∨
      parse_line_value "Identifier: " ["Identifier: ns/img:1.0", "Votes: 0/2"] = none) ∧
    inline_keyboard_click (fun _ _ _ _ => Except.ok ()) BUTTON_DATA_APPROVE
      ["Identifier: ns/img:1.0", "Votes: 0/2"] "user" =
      { apiCalls := [], answers := ["Unknwon error"], synced := false } :=
  ⟨Or.inl rfl, Or.inl (by decide),
    malformed_click_answers_unknown_error _ _ _ _ (Or.inl rfl) (Or.inl (by decide))⟩

/- ----------------------------------------------------------------- -/
/- Claim C6: exact id match bypasses disambiguation                    -/
/- ----------------------------------------------------------------- -/

/-- Claim C6: when the user-supplied string equals the `id` of exactly one
record in the listing handed to the resolution block (the open listing
for approve/reject, the full listing for delete), the action is invoked
immediately on that unique record — the disambiguation selection is never
entered — regardless of how many records share the same `identifier`. -/
theorem exact_id_match_bypasses_disambiguation (items : List ApprovalRecord) (input : String)
    (h : (items.filter (fun x => decide (x.id = input))).length = 1) :
    ∃ r, resolve_target items input = Resolution.immediate r ∧ r.id = input ∧ r ∈ items ∧
      ∀ r' ∈ items, r'.id = input → r' = r := by
  obtain ⟨r, hr⟩ := List.length_eq_one.mp h
  have hmem : r ∈ items.filter (fun x => decide (x.id = input)) := by
    rw [hr]
    exact List.mem_singleton_self r
  rw [List.mem_filter] at hmem
  refine ⟨r, ?_, of_decide_eq_true hmem.2, hmem.1, ?_⟩
  · unfold resolve_target
    rw [hr]
  · intro r' hr' hid
    have hmem' : r' ∈ items.filter (fun x => decide (x.id = input)) :=
      List.mem_filter.mpr ⟨hr', decide_eq_true hid⟩
    rw [hr] at hmem'
    exact List.mem_singleton.mp hmem'

/-- The listing used by the claim C6 witness: two open records sharing the
same human-readable identifier with distinct opaque ids. -/
def itemsC6 : List ApprovalRecord :=
  [⟨"a1", "ns/img:1.0", 0, 2, false, false⟩, ⟨"a2", "ns/img:1.0", 0, 2, false, false⟩]

/-- Claim C6 witness: input `"a2"` exactly matches one id in a listing
where both records share the identifier `"ns/img:1.0"`; resolution is
immediate on that record. -/
theorem exact_id_match_witness :
    ((itemsC6.filter (fun x => decide (x.id = "a2"))).length = 1) ∧
    (∃ r, resolve_target itemsC6 "a2" = Resolution.immediate r ∧ r.id = "a2" ∧ r ∈ itemsC6 ∧
      ∀ r' ∈ itemsC6, r'.id = "a2" → r' = r) :=
  ⟨by decide, exact_id_match_bypasses_disambiguation itemsC6 "a2" (by decide)⟩

/- ----------------------------------------------------------------- -/
/- Claim C2: the four listing classes                                  -/
/- ----------------------------------------------------------------- -/

/-- The listing used by the claim C2 counterexample: one record with both
the archived and the rejected flag set. -/
def itemsC2 : List ApprovalRecord := [⟨"x", "ns/img:2.0", 0, 1, true, true⟩]

/-- Claim C2 counterexample: the four classes are not pairwise disjoint as
claimed — a record with both `archived = true` and `rejected = true` is a
member of both `archived_items` and `rejected_items` of its listing. -/
theorem approval_classes_not_disjoint :
    (⟨"x", "ns/img:2.0", 0, 1, true, true⟩ : ApprovalRecord) ∈ archived_items itemsC2 ∧
    (⟨"x", "ns/img:2.0", 0, 1, true, true⟩ : ApprovalRecord) ∈ rejected_items itemsC2 := by
  decide

/-- Claim C2 (amended): the four classes always exhaust the listing; the
five pairs other than archived/rejected are pairwise disjoint
unconditionally; and archived/rejected are disjoint provided no record of
the listing has both the archived and the rejected flag set (a record
with both flags lands in both `archived_items` and `rejected_items`). -/
theorem approval_classes_partition (items : List ApprovalRecord) :
    (∀ x ∈ items, x ∈ archived_items items ∨ x ∈ rejected_items items ∨
        x ∈ pending_items items ∨ x ∈ approved_items items) ∧
    ((∀ x ∈ items, ¬(x.archived = true ∧ x.rejected = true)) →
      ∀ x : ApprovalRecord, ¬(x ∈ archived_items items ∧ x ∈ rejected_items items)) ∧
    (∀ x : ApprovalRecord, ¬(x ∈ archived_items items ∧ x ∈ pending_items items)) ∧
    (∀ x : ApprovalRecord, ¬(x ∈ archived_items items ∧ x ∈ approved_items items)) ∧
    (∀ x : ApprovalRecord, ¬(x ∈ rejected_items items ∧ x ∈ pending_items items)) ∧
    (∀ x : ApprovalRecord, ¬(x ∈ rejected_items items ∧ x ∈ approved_items items)) ∧
    (∀ x : ApprovalRecord, ¬(x ∈ pending_items items ∧ x ∈ approved_items items)) := by
  refine ⟨?_, ?_, ?_, ?_, ?_, ?_, ?_⟩
  · intro x hx
    cases ha : x.archived
    · cases hr : x.rejected
      · by_cases hv : x.votesReceived < x.votesRequired
        · exact Or.inr (Or.inr (Or.inl ((mem_pending_iff items x).mpr ⟨hx, ha, hr, hv⟩)))
        · exact Or.inr (Or.inr (Or.inr ((mem_approved_iff items x).mpr ⟨hx, ha, hr, hv⟩)))
      · exact Or.inr (Or.inl ((mem_rejected_iff items x).mpr ⟨hx, hr⟩))
    · exact Or.inl ((mem_archived_iff items x).mpr ⟨hx, ha⟩)
  · rintro h x ⟨h1, h2⟩
    rw [mem_archived_iff] at h1
    rw [mem_rejected_iff] at h2
    exact h x h1.1 ⟨h1.2, h2.2⟩
  · rintro x ⟨h1, h2⟩
    rw [mem_archived_iff] at h1
    rw [mem_pending_iff] at h2
    simp [h1.2] at h2
  · rintro x ⟨h1, h2⟩
    rw [mem_archived_iff] at h1
    rw [mem_approved_iff] at h2
    simp [h1.2] at h2
  · rintro x ⟨h1, h2⟩
    rw [mem_rejected_iff] at h1
    rw [mem_pending_iff] at h2
    simp [h1.2] at h2
  · rintro x ⟨h1, h2⟩
    rw [mem_rejected_iff] at h1
    rw [mem_approved_iff] at h2
    simp [h1.2] at h2
  · rintro x ⟨h1, h2⟩
    rw [mem_pending_iff] at h1
    rw [mem_approved_iff] at h2
    exact h2.2.2.2 h1.2.2.2

/-- The listing used by the claim C2 witness: one record in each of the
four classes, none with both flags set. -/
def itemsC2W : List ApprovalRecord :=
  [⟨"p", "a/b:1", 0, 2, false, false⟩, ⟨"q", "a/b:2", 2, 2, false, false⟩,
   ⟨"r", "a/b:3", 0, 1, true, false⟩, ⟨"s", "a/b:4", 0, 1, false, true⟩]

/-- Claim C2 witness: the amended partition statement at a concrete
listing, with the archived/rejected disjointness implication discharged
for this listing, which has no doubly-flagged record. -/
theorem approval_classes_partition_witness :
    (∀ x ∈ itemsC2W, ¬(x.archived = true ∧ x.rejected = true)) ∧
    (∀ x ∈ itemsC2W, x ∈ archived_items itemsC2W ∨ x ∈ rejected_items itemsC2W ∨
        x ∈ pending_items itemsC2W ∨ x ∈ approved_items itemsC2W) ∧
    (∀ x : ApprovalRecord, ¬(x ∈ archived_items itemsC2W ∧ x ∈ rejected_items itemsC2W)) ∧
    (∀ x : ApprovalRecord, ¬(x ∈ archived_items itemsC2W ∧ x ∈ pending_items itemsC2W)) ∧
    (∀ x : ApprovalRecord, ¬(x ∈ archived_items itemsC2W ∧ x ∈ approved_items itemsC2W)) ∧
    (∀ x : ApprovalRecord, ¬(x ∈ rejected_items itemsC2W ∧ x ∈ pending_items itemsC2W)) ∧
    (∀ x : ApprovalRecord, ¬(x ∈ rejected_items itemsC2W ∧ x ∈ approved_items itemsC2W)) ∧
    (∀ x : ApprovalRecord, ¬(x ∈ pending_items itemsC2W ∧ x ∈ approved_items itemsC2W)) :=
  ⟨by decide, (approval_classes_partition itemsC2W).1,
    (approval_classes_partition itemsC2W).2.1 (by decide),
    (approval_classes_partition itemsC2W).2.2.1,
    (approval_classes_partition itemsC2W).2.2.2.1,
    (approval_classes_partition itemsC2W).2.2.2.2.1,
    (approval_classes_partition itemsC2W).2.2.2.2.2.1,
    (approval_classes_partition itemsC2W).2.2.2.2.2.2⟩

/- ----------------------------------------------------------------- -/
/- Claim C3: forget                                                    -/
/- ----------------------------------------------------------------- -/

/-- The registry used by the claim C3 theorems: one approval key with two
tracked messages in one chat. -/
def regC3 : Registry := [("a_i", [(1, [10, 11])])]

/-- Claim C3 counterexample: forgetting a message id that is not tracked
under the key and chat is *not* a no-op — the code's removal is Python
`set.remove` (line 525), which raises `KeyError` for an absent element.
Here message id 99 is not tracked, and the call errors instead of leaving
the registry unchanged without error. -/
theorem forget_absent_raises : forget regC3 "a" "i" 1 99 = Except.error () := by
  rfl

/-- Claim C3 (amended): `forget` of a *tracked* message id succeeds and
removes exactly that message id — afterwards `messagesFor` no longer
contains it, and every other tracked (key, chat, message) triple is
unchanged; `forget` of a message id that is not tracked under that key
and chat raises an error (`KeyError`) instead of being a no-op. -/
theorem forget_removes_or_raises (reg : Registry) (aid ident : String) (chat msg : Nat) :
    (msg ∈ alGet (messagesFor reg aid ident) chat [] →
      ∃ reg', forget reg aid ident chat msg = Except.ok reg' ∧
        ∀ aid' ident' c' m',
          (m' ∈ alGet (messagesFor reg' aid' ident') c' [] ↔
            (m' ∈ alGet (messagesFor reg aid' ident') c' [] ∧
              ¬(makeKey aid' ident' = makeKey aid ident ∧ c' = chat ∧ m' = msg)))) ∧
    (msg ∉ alGet (messagesFor reg aid ident) chat [] →
      forget reg aid ident chat msg = Except.error ()) := by
  simp only [messagesFor_def]
  constructor
  · intro h
    have hmsgs : alGet (alGet reg (makeKey aid ident) []) chat [] ≠ [] :=
      List.ne_nil_of_mem h
    have hchat : alHasKey (alGet reg (makeKey aid ident) []) chat = true :=
      alHasKey_of_alGet_ne hmsgs
    have hchats : alGet reg (makeKey aid ident) [] ≠ [] := by
      intro hnil
      rw [hnil] at hmsgs
      exact hmsgs rfl
    have hkey : alHasKey reg (makeKey aid ident) = true := alHasKey_of_alGet_ne hchats
    refine ⟨alSetExisting reg (makeKey aid ident)
      (alSetExisting (alGet reg (makeKey aid ident) []) chat
        (setErase (alGet (alGet reg (makeKey aid ident) []) chat []) msg)), ?_, ?_⟩
    · unfold forget
      rw [if_pos h]
    · intro aid' ident' c' m'
      by_cases hk : makeKey aid' ident' = makeKey aid ident
      · rw [hk]
        rw [alGet_alSetExisting_self _ _ _ _ hkey]
        by_cases hc : c' = chat
        · rw [hc]
          rw [alGet_alSetExisting_self _ _ _ _ hchat, mem_setErase]
          constructor
          · rintro ⟨hm, hne⟩
            exact ⟨hm, fun hcon => hne hcon.2.2⟩
          · rintro ⟨hm, hne⟩
            exact ⟨hm, fun he => hne ⟨rfl, rfl, he⟩⟩
        · rw [alGet_alSetExisting_ne _ _ _ _ _ hc]
          simp [hc]
      · rw [alGet_alSetExisting_ne _ _ _ _ _ hk]
        simp [hk]
  · intro h
    unfold forget
    rw [if_neg h]

/-- Claim C3 witness: forgetting tracked message 10 of `regC3` succeeds,
10 is gone afterwards, the sibling message 11 stays tracked; forgetting
the untracked id 99 errors. -/
theorem forget_removes_or_raises_witness :
    (10 ∈ alGet (messagesFor regC3 "a" "i") 1 []) ∧
    (∃ reg', forget regC3 "a" "i" 1 10 = Except.ok reg' ∧
      10 ∉ alGet (messagesFor reg' "a" "i") 1 [] ∧
      11 ∈ alGet (messagesFor reg' "a" "i") 1 []) ∧
    forget regC3 "a" "i" 1 99 = Except.error () := by
  refine ⟨by decide, ?_, (forget_removes_or_raises regC3 "a" "i" 1 99).2 (by decide)⟩
  obtain ⟨reg', hok, hframe⟩ := (forget_removes_or_raises regC3 "a" "i" 1 10).1 (by decide)
  refine ⟨reg', hok, ?_, ?_⟩
  · intro hmem
    exact ((hframe "a" "i" 1 10).mp hmem).2 ⟨rfl, rfl, rfl⟩
  · exact (hframe "a" "i" 1 11).mpr ⟨by decide, fun hcon => absurd hcon.2.2 (by decide)⟩

/- ----------------------------------------------------------------- -/
/- Claim C4: register                                                  -/
/- ----------------------------------------------------------------- -/

/-- A registry state for the claim C4 counterexample: chat 1 already
tracks message 5 under key `"a_i"`. -/
def regC4 : Registry := register_message [] 1 5 "a" "i"

/-- Claim C4 counterexample: the claim quantifies over *every* registry
state, but from a state whose chat already tracks another message id,
registering message 6 twice yields a message-id set of size 2, not 1
(the universally quantified size-1 clause fails; only the idempotence
reading survives). -/
theorem register_twice_not_size_one :
    (alGet (messagesFor
        (register_message (register_message regC4 1 6 "a" "i") 1 6 "a" "i") "a" "i") 1
      []).length = 2 := by
  decide

/-- Claim C4 (amended): `register` never fails; after `register` the
mapping returned by `messagesFor` contains the message id under the chat
id; registering twice with identical arguments produces the same registry
as registering once (the second call has no additional effect); and when
the chat previously tracked no messages under the key, the resulting
message-id set for that chat has size 1. -/
theorem register_never_fails_idempotent (reg : Registry) (c m : Nat) (aid ident : String) :
    m ∈ alGet (messagesFor (register_message reg c m aid ident) aid ident) c [] ∧
    register_message (register_message reg c m aid ident) c m aid ident =
      register_message reg c m aid ident ∧
    (alGet (messagesFor reg aid ident) c [] = [] →
      (alGet (messagesFor (register_message (register_message reg c m aid ident) c m aid ident)
          aid ident) c []).length = 1) := by
  have hidem : register_message (register_message reg c m aid ident) c m aid ident =
      register_message reg c m aid ident := by
    unfold register_message
    rw [alUpdate_alUpdate]
    apply alUpdate_congr
    intro chats
    rw [alUpdate_alUpdate]
    apply alUpdate_congr
    intro s
    exact setInsert_idem s m
  refine ⟨?_, hidem, ?_⟩
  · simp only [messagesFor_def]
    unfold register_message
    rw [alGet_alUpdate_eq, alGet_alUpdate_eq]
    exact mem_setInsert_self _ _
  · intro h0
    rw [hidem]
    simp only [messagesFor_def] at h0 ⊢
    unfold register_message
    rw [alGet_alUpdate_eq, alGet_alUpdate_eq, h0]
    rfl

/-- Claim C4 witness: registering message 7 for chat 1 into the empty
registry (whose chat tracks nothing) and a second identical call. -/
theorem register_never_fails_idempotent_witness :
    (alGet (messagesFor ([] : Registry) "a" "i") 1 [] = []) ∧
    7 ∈ alGet (messagesFor (register_message [] 1 7 "a" "i") "a" "i") 1 [] ∧
    register_message (register_message [] 1 7 "a" "i") 1 7 "a" "i" =
      register_message [] 1 7 "a" "i" ∧
    (alGet (messagesFor (register_message (register_message [] 1 7 "a" "i") 1 7 "a" "i")
        "a" "i") 1 []).length = 1 :=
  ⟨by decide, (register_never_fails_idempotent [] 1 7 "a" "i").1,
    (register_never_fails_idempotent [] 1 7 "a" "i").2.1,
    (register_never_fails_idempotent [] 1 7 "a" "i").2.2 (by decide)⟩

/- ----------------------------------------------------------------- -/
/- Lemmas about the synchronization pass                               -/
/- ----------------------------------------------------------------- -/

theorem processChats_cons (a : ApprovalRecord) (editOk : Nat → Nat → Bool) (c : Nat)
    (msgs : List Nat) (rest : ChatMap) (failed : List Nat) :
    processChats a editOk ((c, msgs) :: rest) failed =
      (if (removeAllLoop msgs (editMessagesInChat a editOk c msgs failed).2).2 then
        ((editMessagesInChat a editOk c msgs failed).1,
         (c, (removeAllLoop msgs (editMessagesInChat a editOk c msgs failed).2).1) :: rest, true)
      else
        ((editMessagesInChat a editOk c msgs failed).1 ++
           (processChats a editOk rest (editMessagesInChat a editOk c msgs failed).2).1,
         (c, (removeAllLoop msgs (editMessagesInChat a editOk c msgs failed).2).1) ::
           (processChats a editOk rest (editMessagesInChat a editOk c msgs failed).2).2.1,
         (processChats a editOk rest (editMessagesInChat a editOk c msgs failed).2).2.2)) := rfl

theorem processApproval_def (editOk : Nat → Nat → Bool) (reg : Registry) (a : ApprovalRecord) :
    processApproval editOk reg a =
      ((processChats a editOk (alGet reg (makeKey a.id a.identifier) []) []).1,
       alSetExisting reg (makeKey a.id a.identifier)
         (processChats a editOk (alGet reg (makeKey a.id a.identifier) []) []).2.1,
       (processChats a editOk (alGet reg (makeKey a.id a.identifier) []) []).2.2) := rfl

theorem update_messages_cons (a : ApprovalRecord) (rest : List ApprovalRecord)
    (editOk : Nat → Nat → Bool) (reg : Registry) :
    update_messages (a :: rest) editOk reg =
      (if (processApproval editOk reg a).2.2 then
        ((processApproval editOk reg a).1, (processApproval editOk reg a).2.1, true)
      else
        ((processApproval editOk reg a).1 ++
           (update_messages rest editOk (processApproval editOk reg a).2.1).1,
         (update_messages rest editOk (processApproval editOk reg a).2.1).2.1,
         (update_messages rest editOk (processApproval editOk reg a).2.1).2.2)) := rfl

theorem editMessagesInChat_fst (a : ApprovalRecord) (editOk : Nat → Nat → Bool) (c : Nat)
    (msgs : List Nat) : ∀ failed : List Nat,
    (editMessagesInChat a editOk c msgs failed).1 =
      msgs.map (fun m =>
        (⟨a, c, m, create_approval_notification_menu a, editOk c m⟩ : EditAttempt)) := by
  induction msgs with
  | nil => intro failed; rfl
  | cons m rest ih => intro failed; simp [editMessagesInChat, ih]

theorem editMessagesInChat_snd_allok (a : ApprovalRecord) (editOk : Nat → Nat → Bool)
    (c : Nat) (hok : ∀ c' m', editOk c' m' = true) (msgs : List Nat) : ∀ failed : List Nat,
    (editMessagesInChat a editOk c msgs failed).2 = failed := by
  induction msgs with
  | nil => intro failed; rfl
  | cons m rest ih => intro failed; simp [editMessagesInChat, hok, ih]

theorem processChats_allok_snd (a : ApprovalRecord) (editOk : Nat → Nat → Bool)
    (hok : ∀ c' m', editOk c' m' = true) (chats : ChatMap) :
    (processChats a editOk chats []).2 = (chats, false) := by
  induction chats with
  | nil => rfl
  | cons p rest ih =>
    obtain ⟨c, msgs⟩ := p
    rw [processChats_cons, editMessagesInChat_snd_allok a editOk c hok msgs []]
    simp [removeAllLoop, ih]

theorem mem_processChats_allok (a : ApprovalRecord) (editOk : Nat → Nat → Bool)
    (hok : ∀ c' m', editOk c' m' = true) (chats : ChatMap) (c m : Nat)
    (hm : m ∈ alGet chats c []) :
    (⟨a, c, m, create_approval_notification_menu a, true⟩ : EditAttempt) ∈
      (processChats a editOk chats []).1 := by
  induction chats with
  | nil => simp [alGet] at hm
  | cons p rest ih =>
    obtain ⟨c0, msgs0⟩ := p
    rw [processChats_cons, editMessagesInChat_snd_allok a editOk c0 hok msgs0 []]
    show (⟨a, c, m, create_approval_notification_menu a, true⟩ : EditAttempt) ∈
      (editMessagesInChat a editOk c0 msgs0 []).1 ++ (processChats a editOk rest []).1
    rw [editMessagesInChat_fst]
    by_cases hc : c = c0
    · subst hc
      have hm' : m ∈ msgs0 := by simpa [alGet] using hm
      refine List.mem_append_left _ (List.mem_map.mpr ⟨m, hm', ?_⟩)
      simp [hok]
    · have hm' : m ∈ alGet rest c [] := by simpa [alGet, hc] using hm
      exact List.mem_append_right _ (ih hm')

theorem processApproval_allok_snd (editOk : Nat → Nat → Bool)
    (hok : ∀ c' m', editOk c' m' = true) (reg : Registry) (a : ApprovalRecord) :
    (processApproval editOk reg a).2 = (reg, false) := by
  rw [processApproval_def]
  show (alSetExisting reg (makeKey a.id a.identifier)
      (processChats a editOk (alGet reg (makeKey a.id a.identifier) []) []).2.1,
    (processChats a editOk (alGet reg (makeKey a.id a.identifier) []) []).2.2) = (reg, false)
  rw [processChats_allok_snd a editOk hok]
  simp [alSetExisting_alGet]

theorem update_messages_allok_snd (approvals : List ApprovalRecord)
    (editOk : Nat → Nat → Bool) (hok : ∀ c' m', editOk c' m' = true) :
    ∀ reg : Registry, (update_messages approvals editOk reg).2 = (reg, false) := by
  induction approvals with
  | nil => intro reg; rfl
  | cons a rest ih =>
    intro reg
    rw [update_messages_cons, processApproval_allok_snd editOk hok reg a]
    simp [ih]

theorem mem_update_messages_allok (editOk : Nat → Nat → Bool)
    (hok : ∀ c' m', editOk c' m' = true) (a : ApprovalRecord) (c m : Nat) :
    ∀ (approvals : List ApprovalRecord) (reg : Registry), a ∈ approvals →
      m ∈ alGet (alGet reg (makeKey a.id a.identifier) []) c [] →
      (⟨a, c, m, create_approval_notification_menu a, true⟩ : EditAttempt) ∈
        (update_messages approvals editOk reg).1 := by
  intro approvals
  induction approvals with
  | nil => intro reg ha _; simp at ha
  | cons a0 rest ih =>
    intro reg ha hm
    rw [update_messages_cons, processApproval_allok_snd editOk hok reg a0]
    show (⟨a, c, m, create_approval_notification_menu a, true⟩ : EditAttempt) ∈
      (processApproval editOk reg a0).1 ++ (update_messages rest editOk reg).1
    rcases List.mem_cons.mp ha with rfl | ha'
    · refine List.mem_append_left _ ?_
      show (⟨a, c, m, create_approval_notification_menu a, true⟩ : EditAttempt) ∈
        (processChats a editOk (alGet reg (makeKey a.id a.identifier) []) []).1
      exact mem_processChats_allok a editOk hok _ c m hm
    · exact List.mem_append_right _ (ih reg ha' hm)

theorem mem_editMessagesInChat_approval (a : ApprovalRecord) (editOk : Nat → Nat → Bool)
    (c : Nat) (msgs failed : List Nat) (e : EditAttempt)
    (he : e ∈ (editMessagesInChat a editOk c msgs failed).1) : e.approval = a := by
  rw [editMessagesInChat_fst] at he
  obtain ⟨m, -, rfl⟩ := List.mem_map.mp he
  rfl

theorem processChats_approval (a : ApprovalRecord) (editOk : Nat → Nat → Bool) :
    ∀ (chats : ChatMap) (failed : List Nat) (e : EditAttempt),
      e ∈ (processChats a editOk chats failed).1 → e.approval = a := by
  intro chats
  induction chats with
  | nil => intro failed e he; simp [processChats] at he
  | cons p rest ih =>
    obtain ⟨c0, msgs0⟩ := p
    intro failed e he
    rw [processChats_cons] at he
    by_cases hcond : (removeAllLoop msgs0 (editMessagesInChat a editOk c0 msgs0 failed).2).2 = true
    · rw [if_pos hcond] at he
      exact mem_editMessagesInChat_approval a editOk c0 msgs0 failed e he
    · rw [if_neg hcond] at he
      rcases List.mem_append.mp he with h1 | h2
      · exact mem_editMessagesInChat_approval a editOk c0 msgs0 failed e h1
      · exact ih _ e h2

theorem processApproval_approval (editOk : Nat → Nat → Bool) (reg : Registry)
    (a : ApprovalRecord) (e : EditAttempt) (he : e ∈ (processApproval editOk reg a).1) :
    e.approval = a :=
  processChats_approval a editOk _ _ e he

/- ----------------------------------------------------------------- -/
/- Claim C9: approvals absent from the listing                         -/
/- ----------------------------------------------------------------- -/

/-- Claim C9: a synchronization pass leaves every registry key whose
derived key matches no approval of the fresh listing entirely untouched:
its registry entry is unchanged (whether or not the pass aborted), and no
edit attempt of the pass renders an approval with that key. -/
theorem sync_leaves_absent_keys_untouched (approvals : List ApprovalRecord)
    (editOk : Nat → Nat → Bool) :
    ∀ (reg : Registry) (k : String), (∀ a ∈ approvals, makeKey a.id a.identifier ≠ k) →
      alGet (update_messages approvals editOk reg).2.1 k [] = alGet reg k [] ∧
      ∀ e ∈ (update_messages approvals editOk reg).1,
        makeKey e.approval.id e.approval.identifier ≠ k := by
  induction approvals with
  | nil =>
    intro reg k _
    exact ⟨rfl, by intro e he; simp [update_messages] at he⟩
  | cons a rest ih =>
    intro reg k hk
    have hka : makeKey a.id a.identifier ≠ k := hk a (List.mem_cons_self a rest)
    have hrest : ∀ a' ∈ rest, makeKey a'.id a'.identifier ≠ k :=
      fun a' ha' => hk a' (List.mem_cons_of_mem _ ha')
    have hstate : alGet (processApproval editOk reg a).2.1 k [] = alGet reg k [] := by
      rw [processApproval_def]
      show alGet (alSetExisting reg (makeKey a.id a.identifier)
        (processChats a editOk (alGet reg (makeKey a.id a.identifier) []) []).2.1) k [] =
        alGet reg k []
      exact alGet_alSetExisting_ne _ _ _ _ _ (fun h => hka h.symm)
    have htr : ∀ e ∈ (processApproval editOk reg a).1,
        makeKey e.approval.id e.approval.identifier ≠ k := by
      intro e he
      rw [processApproval_approval editOk reg a e he]
      exact hka
    rw [update_messages_cons]
    by_cases hcond : (processApproval editOk reg a).2.2 = true
    · rw [if_pos hcond]
      exact ⟨hstate, htr⟩
    · rw [if_neg hcond]
      obtain ⟨ih1, ih2⟩ := ih (processApproval editOk reg a).2.1 k hrest
      refine ⟨?_, ?_⟩
      · show alGet (update_messages rest editOk (processApproval editOk reg a).2.1).2.1 k [] =
          alGet reg k []
        rw [ih1, hstate]
      · intro e he
        rcases List.mem_append.mp he with h1 | h2
        · exact htr e h1
        · exact ih2 e h2

/-- The registry for the claim C9 witness: key `"zz_q"` tracks message 40
in chat 9 and matches no approval of the listing. -/
def regC9 : Registry := [("a1_i1", [(1, [10])]), ("zz_q", [(9, [40])])]

/-- The listing for the claim C9 witness. -/
def approvalsC9 : List ApprovalRecord := [⟨"a1", "i1", 0, 2, false, false⟩]

/-- Claim C9 witness: after a pass over a listing not containing the key
`"zz_q"`, its entry is unchanged and no edit attempt rendered it. -/
theorem sync_leaves_absent_keys_untouched_witness :
    (∀ a ∈ approvalsC9, makeKey a.id a.identifier ≠ "zz_q") ∧
    (alGet (update_messages approvalsC9 (fun _ _ => true) regC9).2.1 "zz_q" [] =
      alGet regC9 "zz_q" [] ∧
    ∀ e ∈ (update_messages approvalsC9 (fun _ _ => true) regC9).1,
      makeKey e.approval.id e.approval.identifier ≠ "zz_q") :=
  ⟨by decide,
    sync_leaves_absent_keys_untouched approvalsC9 (fun _ _ => true) regC9 "zz_q" (by decide)⟩

/- ----------------------------------------------------------------- -/
/- Claim C5: fully voted open approvals are re-rendered closed         -/
/- ----------------------------------------------------------------- -/

/-- Claim C5: for an approval of the listing with `archived = false`,
`rejected = false` and `votesReceived ≥ votesRequired`, and any message
tracked under its composite key, a synchronization pass whose edits
succeed re-renders that message, attaching the menu of
`create_approval_notification_menu`, which for such a record is the empty
control set — no approve and no reject button. -/
theorem sync_rerenders_approved_without_buttons (approvals : List ApprovalRecord)
    (editOk : Nat → Nat → Bool) (reg : Registry)
    (hok : ∀ c' m', editOk c' m' = true) (a : ApprovalRecord) (ha : a ∈ approvals)
    (harch : a.archived = false) (hrej : a.rejected = false)
    (hvotes : a.votesRequired ≤ a.votesReceived) (c m : Nat)
    (hm : m ∈ alGet (alGet reg (makeKey a.id a.identifier) []) c []) :
    create_approval_notification_menu a = [] ∧
    (⟨a, c, m, [], true⟩ : EditAttempt) ∈ (update_messages approvals editOk reg).1 := by
  have hmenu : create_approval_notification_menu a = [] := by
    simp [create_approval_notification_menu, harch, hrej, Nat.not_lt.mpr hvotes]
  refine ⟨hmenu, ?_⟩
  have h := mem_update_messages_allok editOk hok a c m approvals reg ha hm
  rwa [hmenu] at h

/-- The approval of the spec's claim C5 scenario after both votes were
cast: id `"a1"`, identifier `"ns/img:1.0"`, 2 of 2 votes, open flags. -/
def approvalC5 : ApprovalRecord := ⟨"a1", "ns/img:1.0", 2, 2, false, false⟩

/-- The registry of the spec's claim C5 scenario: message 55 of chat 100
tracks the approval. -/
def regC5 : Registry := [("a1_ns/img:1.0", [(100, [55])])]

/-- Claim C5 witness: the spec's scenario — after `synchronize()` the
tracked message 55 is re-rendered with an empty control set. -/
theorem sync_rerenders_approved_witness :
    (∀ c' m', (fun _ _ => true : Nat → Nat → Bool) c' m' = true) ∧
    approvalC5 ∈ [approvalC5] ∧ approvalC5.archived = false ∧
    approvalC5.rejected = false ∧ approvalC5.votesRequired ≤ approvalC5.votesReceived ∧
    55 ∈ alGet (alGet regC5 (makeKey approvalC5.id approvalC5.identifier) []) 100 [] ∧
    (create_approval_notification_menu approvalC5 = [] ∧
      (⟨approvalC5, 100, 55, [], true⟩ : EditAttempt) ∈
        (update_messages [approvalC5] (fun _ _ => true) regC5).1) :=
  ⟨fun _ _ => rfl, by decide, rfl, rfl, by decide, by decide,
    sync_rerenders_approved_without_buttons [approvalC5] (fun _ _ => true) regC5
      (fun _ _ => rfl) approvalC5 (by decide) rfl rfl (by decide) 100 55 (by decide)⟩

/- ----------------------------------------------------------------- -/
/- Claim C1: edit failures are not isolated                            -/
/- ----------------------------------------------------------------- -/

/-- First approval of the claim C1 failing input (key `"a_i"`). -/
def approvalA : ApprovalRecord := ⟨"a", "i", 0, 2, false, false⟩

/-- Second approval of the claim C1 failing input (key `"b_j"`). -/
def approvalB : ApprovalRecord := ⟨"b", "j", 0, 2, false, false⟩

/-- The registry of the claim C1 failing input: approval `"a_i"` is
tracked by message 10 in chat 1 and message 20 in chat 2; approval
`"b_j"` is tracked by message 30 in chat 3. -/
def regC1 : Registry := [("a_i", [(1, [10]), (2, [20])]), ("b_j", [(3, [30])])]

/-- The edit oracle of the claim C1 failing input: only the edit of
message 10 in chat 1 fails; every other edit succeeds. -/
def editOkC1 : Nat → Nat → Bool := fun c m => !(c = 1 && m = 10)

/-- Claim C1 (code bug): the failed edit of message 10 (chat 1) is *not*
isolated.  Because `failed_messages` is created once per approval (line
507) and not reset between chats, and because `set.remove` (line 525)
raises for an absent element, the pass raises `KeyError` while removing
the carried-over failed id 10 from chat 2's set, after chat 2's own
successful edit.  The final `true` component is the escaped exception:
the whole pass aborts, and the tracked message 30 of approval `"b_j"` —
a different approval, whose edit would have succeeded — is never edited
(no attempt for chat 3 appears in the trace), contradicting the claimed
per-message isolation.  (Message 10 is removed from chat 1's set and
message 20 stays tracked, as the claim demands; the violation is the
abort.) -/
theorem sync_edit_failure_not_isolated :
    (update_messages [approvalA, approvalB] editOkC1 regC1).1 =
      [⟨approvalA, 1, 10,
          [("Approve", BUTTON_DATA_APPROVE), ("Reject", BUTTON_DATA_REJECT)], false⟩,
        ⟨approvalA, 2, 20,
          [("Approve", BUTTON_DATA_APPROVE), ("Reject", BUTTON_DATA_REJECT)], true⟩] ∧
    (update_messages [approvalA, approvalB] editOkC1 regC1).2.1 =
      [("a_i", [(1, []), (2, [20])]), ("b_j", [(3, [30])])] ∧
    (update_messages [approvalA, approvalB] editOkC1 regC1).2.2 = true ∧
    ∀ e ∈ (update_messages [approvalA, approvalB] editOkC1 regC1).1,
      ¬(e.chat_id = 3 ∧ e.message_id = 30) := by
  decide
